import Mathlib

/-!
Shallow embedding of the chatgpt-export-explorer pipeline, translated from the
notebook sources, together with theorems checking the natural-language
specification against it.
-/

namespace ChatExport

/-- Python runtime errors that the notebook code can raise. -/
inductive PyErr where
  | keyError (key : String)
  | typeError (msg : String)
  | integrityError (msg : String)
  | nonTermination
  deriving DecidableEq, Repr

/-- The author object carried by a message payload. -/
structure Author where
  role : String
  deriving DecidableEq, Repr

/-- A message payload of a conversation node. The export always carries the
author and create_time keys; create_time may be null and author may be null. -/
structure Message where
  author : Option Author
  create_time : Option Int
  deriving DecidableEq, Repr

/-- A raw conversation node, seen as a JSON object. Each expected key may be
absent entirely (outer Option is none) or present with a possibly-null value. -/
structure RawNode where
  parentKey : Option (Option String)
  childrenKey : Option (List String)
  messageKey : Option (Option Message)
  deriving DecidableEq, Repr

/-- Python dictionary access node["parent"]: KeyError when the key is absent. -/
def RawNode.getParent (n : RawNode) : Except PyErr (Option String) :=
  match n.parentKey with
  | some v => .ok v
  | none => .error (.keyError "parent")

/-- Python dictionary access node["children"]: KeyError when the key is absent. -/
def RawNode.getChildren (n : RawNode) : Except PyErr (List String) :=
  match n.childrenKey with
  | some v => .ok v
  | none => .error (.keyError "children")

/-- Python dictionary access node["message"]: KeyError when the key is absent. -/
def RawNode.getMessage (n : RawNode) : Except PyErr (Option Message) :=
  match n.messageKey with
  | some v => .ok v
  | none => .error (.keyError "message")

/-- A node mapping, as an insertion-ordered association list mirroring the
Python dict passed to extract_longest_conversation. -/
abbrev Mapping : Type := List (String × RawNode)

/-- Python dictionary access mapping[current_id]: KeyError on a missing id. -/
def lookupNode (m : Mapping) (k : String) : Except PyErr RawNode :=
  match List.find? (fun p => p.1 = k) m with
  | some p => .ok p.2
  | none => .error (.keyError k)

/-- The body of get_chain_from_node in part_001: walk from a node, always
taking the first child, collecting non-null messages. The while loop guard
`while current_id` is false for None and for the empty string. Fuel models the
unbounded while loop; running out of fuel corresponds to a non-terminating
walk over a cyclic mapping. -/
def getChainFromNode (m : Mapping) : Nat → Option String → Except PyErr (List Message)
  | _, none => .ok []
  | fuel, some nid =>
    if nid = "" then .ok []
    else
      match fuel with
      | 0 => .error .nonTermination
      | fuel' + 1 => do
        let node ← lookupNode m nid
        let msg ← node.getMessage
        let children ← node.getChildren
        let rest ← getChainFromNode m fuel' children.head?
        match msg with
        | some message => .ok (message :: rest)
        | none => .ok rest

/-- Root finding in extract_longest_conversation: the ids of all nodes whose
"parent" entry is null, in mapping iteration order. Accessing node["parent"]
raises KeyError when the key is missing. -/
def rootNodes : Mapping → Except PyErr (List String)
  | [] => .ok []
  | p :: ps => do
    let par ← p.2.getParent
    let rest ← rootNodes ps
    pure (if par = none then p.1 :: rest else rest)

/-- Fuel that suffices for every acyclic first-child walk over m. -/
def extractFuel (m : Mapping) : Nat := m.length + 1

/-- all_chains in extract_longest_conversation: one candidate chain per root. -/
def allChains (m : Mapping) : Except PyErr (List (List Message)) := do
  let roots ← rootNodes m
  roots.mapM (fun r => getChainFromNode m (extractFuel m) (some r))

/-- One step of Python max with key=len: keep the current best unless the new
candidate has a strictly greater key, so the first maximum wins. -/
def pyMaxStep (best c : List Message) : List Message :=
  if c.length > best.length then c else best

/-- Python max(chains, key=len) if chains else []: the first chain attaining
the maximal length, or the empty list when there are no chains. -/
def pyMaxByLen (l : List (List Message)) : List Message :=
  match l with
  | [] => []
  | x :: xs => xs.foldl pyMaxStep x

/-- The chain selected by extract_longest_conversation before sorting. -/
def selectedChain (m : Mapping) : Except PyErr (List Message) :=
  (allChains m).map pyMaxByLen

/-- Sort key used by extract_longest_conversation:
(x["create_time"] or 0) if x else 0. -/
def createTimeKey (msg : Message) : Int := msg.create_time.getD 0

/-- Insert into a list sorted ascending by createTimeKey, keeping existing
elements with an equal key in front (a stable sort step). -/
def insertByCreateTime (x : Message) : List Message → List Message
  | [] => [x]
  | y :: ys =>
    if createTimeKey x < createTimeKey y then x :: y :: ys
    else y :: insertByCreateTime x ys

/-- Python sorted(chain, key=createTimeKey): a stable ascending sort. -/
def pySortByCreateTime (l : List Message) : List Message :=
  l.foldr insertByCreateTime []

/-- Result row of the message DataFrame: the message plus the derived
author_role column. -/
def authorRoleOf (msg : Message) : Option String :=
  match msg.author with
  | some a => some a.role
  | none => none

/-- Adding the author_role column: on a DataFrame with zero rows the "author"
column does not exist and pandas raises KeyError("author"); otherwise each
row gains author_role = x["role"] if x else None. -/
def dfWithAuthorRole (rows : List Message) : Except PyErr (List (Message × Option String)) :=
  match rows with
  | [] => .error (.keyError "author")
  | _ => .ok (rows.map (fun msg => (msg, authorRoleOf msg)))

/-- extract_longest_conversation from part_001: find roots, build one
first-child chain per root, take the first longest chain, sort it by
create_time (nulls as 0), and add the author_role column. -/
def extract_longest_conversation (m : Mapping) :
    Except PyErr (List (Message × Option String)) := do
  let chains ← allChains m
  dfWithAuthorRole (pySortByCreateTime (pyMaxByLen chains))

lemma pyMaxStep_le_left (x y : List Message) : x.length ≤ (pyMaxStep x y).length := by
  unfold pyMaxStep
  split <;> omega

lemma pyMaxStep_le_right (x y : List Message) : y.length ≤ (pyMaxStep x y).length := by
  unfold pyMaxStep
  split <;> omega

lemma foldMax_ge (xs : List (List Message)) :
    ∀ x c : List Message, c = x ∨ c ∈ xs →
      c.length ≤ (xs.foldl pyMaxStep x).length := by
  induction xs with
  | nil =>
    intro x c hc
    rcases hc with rfl | h
    · exact le_refl _
    · cases h
  | cons y ys ih =>
    intro x c hc
    simp only [List.foldl_cons]
    rcases hc with rfl | h
    · exact le_trans (pyMaxStep_le_left c y) (ih (pyMaxStep c y) _ (Or.inl rfl))
    · rcases List.mem_cons.mp h with rfl | hmem
      · exact le_trans (pyMaxStep_le_right x c) (ih (pyMaxStep x c) _ (Or.inl rfl))
      · exact ih (pyMaxStep x y) c (Or.inr hmem)

lemma foldMax_first (xs : List (List Message)) :
    ∀ x : List Message, ∃ pre post,
      x :: xs = pre ++ (xs.foldl pyMaxStep x) :: post ∧
      ∀ c ∈ pre, c.length < (xs.foldl pyMaxStep x).length := by
  induction xs with
  | nil =>
    intro x
    exact ⟨[], [], rfl, by simp⟩
  | cons y ys ih =>
    intro x
    simp only [List.foldl_cons]
    by_cases hlen : y.length > x.length
    · have hstep : pyMaxStep x y = y := by simp [pyMaxStep, hlen]
      rw [hstep]
      obtain ⟨pre, post, hdec, hlt⟩ := ih y
      refine ⟨x :: pre, post, by rw [List.cons_append, ← hdec], ?_⟩
      intro c hcmem
      rcases List.mem_cons.mp hcmem with rfl | hcpre
      · exact lt_of_lt_of_le hlen (foldMax_ge ys y y (Or.inl rfl))
      · exact hlt c hcpre
    · have hstep : pyMaxStep x y = x := by simp [pyMaxStep, hlen]
      rw [hstep]
      obtain ⟨pre, post, hdec, hlt⟩ := ih x
      set r := ys.foldl pyMaxStep x with hr
      cases pre with
      | nil =>
        simp only [List.nil_append, List.cons.injEq] at hdec
        refine ⟨[], y :: ys, ?_, by simp⟩
        simp only [List.nil_append]
        rw [← hdec.1]
      | cons x0 pre' =>
        simp only [List.cons_append, List.cons.injEq] at hdec
        obtain ⟨hx0, hys⟩ := hdec
        have hxlt : x.length < r.length := by
          have hx0lt := hlt x0 (List.mem_cons_self _ _)
          rw [← hx0] at hx0lt
          exact hx0lt
        refine ⟨x :: y :: pre', post, ?_, ?_⟩
        · rw [List.cons_append, List.cons_append, ← hys]
        · intro c hcmem
          rcases List.mem_cons.mp hcmem with rfl | hcmem'
          · exact hxlt
          rcases List.mem_cons.mp hcmem' with rfl | hcpre
          · omega
          · exact hlt c (List.mem_cons_of_mem _ hcpre)

/-- C1: for every node mapping whose chain extraction succeeds, the chain
selected by extract_longest_conversation has a message count greater than or
equal to that of every root-originated first-child chain, and it is the first
chain in root-iteration order attaining that maximal count (every strictly
earlier chain is strictly shorter). -/
theorem canonical_chain_is_first_longest (m : Mapping) (cs : List (List Message))
    (hc : allChains m = .ok cs) :
    ∃ r, selectedChain m = .ok r ∧
      (∀ c ∈ cs, c.length ≤ r.length) ∧
      (cs ≠ [] → ∃ pre post, cs = pre ++ r :: post ∧
        ∀ c ∈ pre, c.length < r.length) := by
  refine ⟨pyMaxByLen cs, ?_, ?_, ?_⟩
  · unfold selectedChain
    rw [hc]
    rfl
  · intro c hcmem
    cases cs with
    | nil => cases hcmem
    | cons x xs =>
      exact foldMax_ge xs x c (List.mem_cons.mp hcmem)
  · intro hne
    cases cs with
    | nil => exact absurd rfl hne
    | cons x xs => exact foldMax_first xs x

/-- Witness for C1 at a concrete two-root mapping with chains of lengths 1
and 2: the selected chain is the two-message one. -/
theorem canonical_chain_is_first_longest_witness :
    allChains
        [("r1", ⟨some none, some [], some (some ⟨some ⟨"user"⟩, some 5⟩)⟩),
         ("r2", ⟨some none, some ["c2"], some (some ⟨some ⟨"assistant"⟩, some 3⟩)⟩),
         ("c2", ⟨some (some "r2"), some [], some (some ⟨some ⟨"user"⟩, none⟩)⟩)] =
      .ok [[⟨some ⟨"user"⟩, some 5⟩], [⟨some ⟨"assistant"⟩, some 3⟩, ⟨some ⟨"user"⟩, none⟩]] ∧
    ∃ r, selectedChain
        [("r1", ⟨some none, some [], some (some ⟨some ⟨"user"⟩, some 5⟩)⟩),
         ("r2", ⟨some none, some ["c2"], some (some ⟨some ⟨"assistant"⟩, some 3⟩)⟩),
         ("c2", ⟨some (some "r2"), some [], some (some ⟨some ⟨"user"⟩, none⟩)⟩)] = .ok r ∧
      (∀ c ∈ [[⟨some ⟨"user"⟩, some 5⟩],
              [⟨some ⟨"assistant"⟩, some 3⟩, (⟨some ⟨"user"⟩, none⟩ : Message)]],
        c.length ≤ r.length) ∧
      (([[⟨some ⟨"user"⟩, some 5⟩],
         [⟨some ⟨"assistant"⟩, some 3⟩, (⟨some ⟨"user"⟩, none⟩ : Message)]] :
          List (List Message)) ≠ [] →
        ∃ pre post,
          ([[⟨some ⟨"user"⟩, some 5⟩],
            [⟨some ⟨"assistant"⟩, some 3⟩, (⟨some ⟨"user"⟩, none⟩ : Message)]] :
             List (List Message)) = pre ++ r :: post ∧
          ∀ c ∈ pre, c.length < r.length) :=
  ⟨by rfl, canonical_chain_is_first_longest _ _ (by rfl)⟩

/-- C3: for a mapping with zero roots the code does raise: the longest chain
is empty, the DataFrame built from it has no columns, and adding the
author_role column raises KeyError("author"). Shown both on the empty mapping
and on a nonempty mapping in which no node has a null parent (root check
evaluates to the empty root list in both cases). -/
theorem zero_roots_raises_keyerror_author :
    rootNodes [("a", ⟨some (some "b"), some [], some none⟩)] = .ok [] ∧
    extract_longest_conversation [("a", ⟨some (some "b"), some [], some none⟩)] =
      .error (.keyError "author") ∧
    extract_longest_conversation ([] : Mapping) = .error (.keyError "author") :=
  ⟨by rfl, by rfl, by rfl⟩

/-- C4 counterexample: a node missing the "message" key makes the walk raise
KeyError("message"), which names the missing key and not the offending node
id "n1"; moreover a malformed node that the walk never consults (node "x",
missing "message", off the canonical chain) raises no error at all, so no
parse error naming it is ever surfaced. -/
theorem malformed_node_error_names_key_not_id :
    extract_longest_conversation [("n1", ⟨some none, some [], none⟩)] =
      .error (.keyError "message") ∧
    "message" ≠ "n1" ∧
    extract_longest_conversation
        [("r", ⟨some none, some [], some (some ⟨some ⟨"user"⟩, some 1⟩)⟩),
         ("x", ⟨some (some "r"), some [], none⟩)] =
      .ok [(⟨some ⟨"user"⟩, some 1⟩, some "user")] :=
  ⟨by rfl, by decide, by rfl⟩

lemma rootNodes_error_of_missing_parent (m : Mapping) (nid : String) (node : RawNode)
    (hmem : (nid, node) ∈ m) (hmiss : node.parentKey = none) :
    rootNodes m = .error (.keyError "parent") := by
  induction m with
  | nil => cases hmem
  | cons p ps ih =>
    rcases List.mem_cons.mp hmem with heq | hmem'
    · have hp : p.2.parentKey = none := by rw [← heq]; exact hmiss
      simp only [rootNodes, RawNode.getParent, hp]
      rfl
    · cases hp : p.2.parentKey with
      | none =>
        simp only [rootNodes, RawNode.getParent, hp]
        rfl
      | some v =>
        simp only [rootNodes, RawNode.getParent, hp, ih hmem']
        rfl

/-- C4 amended: a node missing the "parent" key is never silently dropped:
the root scan touches every node, so extraction raises KeyError naming the
missing key ("parent"), not the offending node id. -/
theorem missing_parent_key_raises_keyerror (m : Mapping) (nid : String) (node : RawNode)
    (hmem : (nid, node) ∈ m) (hmiss : node.parentKey = none) :
    rootNodes m = .error (.keyError "parent") ∧
    extract_longest_conversation m = .error (.keyError "parent") := by
  have hroot := rootNodes_error_of_missing_parent m nid node hmem hmiss
  refine ⟨hroot, ?_⟩
  simp only [extract_longest_conversation, allChains, hroot]
  rfl

/-- Witness for the amended C4 at a concrete mapping with one node lacking
the "parent" key. -/
theorem missing_parent_key_raises_keyerror_witness :
    (("n2", (⟨none, some [], some none⟩ : RawNode)) ∈
        ([("n2", ⟨none, some [], some none⟩)] : Mapping)) ∧
    (RawNode.parentKey ⟨none, some [], some none⟩ = none) ∧
    rootNodes [("n2", ⟨none, some [], some none⟩)] = .error (.keyError "parent") ∧
    extract_longest_conversation [("n2", ⟨none, some [], some none⟩)] =
      .error (.keyError "parent") := by
  refine ⟨List.mem_singleton.mpr rfl, rfl, ?_⟩
  exact missing_parent_key_raises_keyerror _ "n2" _ (List.mem_singleton.mpr rfl) rfl

/-- The parsed structured output of the summarization request
(ConversationSummary in notebook 02: summary text plus tag list). -/
structure ParsedSummary where
  summary : String
  tags : List String
  deriving DecidableEq, Repr

/-- The message object inside one API choice; parsed is null when the
provider returned no schema-conforming output. -/
structure ChoiceMessage where
  parsed : Option ParsedSummary
  deriving DecidableEq, Repr

/-- One choice of a chat completion response. -/
structure Choice where
  message : ChoiceMessage
  deriving DecidableEq, Repr

/-- A chat completion response, carrying its list of choices. -/
structure Completion where
  choices : List Choice
  deriving DecidableEq, Repr

/-- Modelled from the spec: one request of generate_completions_in_parallel
(utils/openai.py, which is not under src/; only its call sites are). Each
request is retried on failure up to a bounded retry count; the first
successful attempt wins; exhausting retries records the item as failed
(none). The external AI capability is the respond argument, indexed by
attempt number. -/
def processRequest (α : Type) (respond : Nat → α → Option Completion)
    (maxRetries : Nat) (prompt : α) : Option Completion :=
  (List.range (maxRetries + 1)).findSome? (fun attempt => respond attempt prompt)

/-- Modelled from the spec: generate_completions_in_parallel returns, in the
input order, one completion or a recorded failure per (prompt, schema) pair;
requests complete out of order internally, but results are buffered into the
slot of their own item. -/
def generate_completions_in_parallel (α : Type) (respond : Nat → α → Option Completion)
    (maxRetries : Nat) (batch : List α) : List (Option Completion) :=
  batch.map (processRequest α respond maxRetries)

/-- The per-completion try/except of notebook 02 cell 16: reading
completion.choices[0].message.parsed; any exception (a missing completion or
an empty choices list) is caught and recorded as None in that slot. -/
def parseCompletionSlot (c : Option Completion) : Option ParsedSummary :=
  match c with
  | none => none
  | some comp =>
    match comp.choices with
    | [] => none
    | ch :: _ => ch.message.parsed

/-- Notebook 02 cell 16 end to end: run the batch through the orchestrator
and parse each returned completion into its slot of conversation_summaries. -/
def conversationSummariesFor (α : Type) (respond : Nat → α → Option Completion)
    (maxRetries : Nat) (batch : List α) : List (Option ParsedSummary) :=
  (generate_completions_in_parallel α respond maxRetries batch).map parseCompletionSlot

/-- C2: the result list has exactly one entry per input, in input order; the
slot of item i is a function of item i alone, so a per-item failure (retry
exhaustion or schema-parse failure) becomes None in its own slot and never
aborts the other items; in particular an item whose every attempt fails gets
None while any other item keeps its own result. -/
theorem orchestrator_preserves_order_and_isolates_failures
    (α : Type) (respond : Nat → α → Option Completion) (maxRetries : Nat)
    (batch : List α) :
    (conversationSummariesFor α respond maxRetries batch).length = batch.length ∧
    (∀ (i : Nat) (p : α), batch[i]? = some p →
      (conversationSummariesFor α respond maxRetries batch)[i]? =
        some (parseCompletionSlot (processRequest α respond maxRetries p))) ∧
    (∀ (i : Nat) (p : α), batch[i]? = some p →
      (∀ attempt, attempt < maxRetries + 1 → respond attempt p = none) →
      (conversationSummariesFor α respond maxRetries batch)[i]? = some none) := by
  refine ⟨?_, ?_, ?_⟩
  · simp [conversationSummariesFor, generate_completions_in_parallel]
  · intro i p hp
    simp [conversationSummariesFor, generate_completions_in_parallel,
      List.getElem?_map, hp]
  · intro i p hp hfail
    have hnone : processRequest α respond maxRetries p = none := by
      unfold processRequest
      rw [List.findSome?_eq_none_iff]
      intro attempt hmem
      exact hfail attempt (List.mem_range.mp hmem)
    simp [conversationSummariesFor, generate_completions_in_parallel,
      List.getElem?_map, hp, hnone, parseCompletionSlot]

/-- A concrete external responder for the C2 witness: every attempt on the
prompt "bad" fails; every other prompt parses to a fixed summary. -/
def unreliableResponder (_attempt : Nat) (p : String) : Option Completion :=
  if p = "bad" then none else some ⟨[⟨⟨some ⟨"s", ["t"]⟩⟩⟩]⟩

/-- Witness for C2: a two-item batch in which the second item fails every
attempt; the first slot still holds its parsed result, the second slot is
None, and the batch keeps length 2. -/
theorem orchestrator_preserves_order_and_isolates_failures_witness :
    ((["good", "bad"] : List String)[1]? = some "bad") ∧
    (∀ attempt, attempt < 3 + 1 → unreliableResponder attempt "bad" = none) ∧
    (conversationSummariesFor String unreliableResponder 3
      ["good", "bad"]).length = 2 ∧
    (conversationSummariesFor String unreliableResponder 3
      ["good", "bad"])[1]? = some none := by
  refine ⟨rfl, fun _ _ => rfl, ?_, ?_⟩
  · exact (orchestrator_preserves_order_and_isolates_failures String
      unreliableResponder 3 ["good", "bad"]).1.trans rfl
  · exact (orchestrator_preserves_order_and_isolates_failures String unreliableResponder 3
      ["good", "bad"]).2.2 1 "bad" rfl (fun _ _ => rfl)

/-- Notebook 02 cell 16: summary = x.summary if x else None. -/
def summaryFromEnrichment (x : Option ParsedSummary) : Option String :=
  match x with
  | some s => some s.summary
  | none => none

/-- Notebook 02 cell 16: tags = x.tags if x else None. -/
def tagsFromEnrichment (x : Option ParsedSummary) : Option (List String) :=
  match x with
  | some s => some s.tags
  | none => none

/-- Python str(...) on an optional string: None renders as "None". -/
def pyStrOpt (s : Option String) : String :=
  match s with
  | some v => v
  | none => "None"

/-- Python sep.join(tags) where tags may be None: joining None raises
TypeError (can only join an iterable). -/
def pyJoin (sep : String) (tags : Option (List String)) : Except PyErr String :=
  match tags with
  | some ts => .ok (String.intercalate sep ts)
  | none => .error (.typeError "can only join an iterable")

/-- The embedding input text of notebook 02 cell 24:
title, then the joined tag list, then the summary. -/
def buildEmbeddingText (title : String) (tags : Option (List String))
    (summary : Option String) : Except PyErr String := do
  let tagStr ← pyJoin ", " tags
  pure (title ++ "\nTags: " ++ tagStr ++ "\nSummary: " ++ pyStrOpt summary)

/-- The embedding input text of notebook 04 cell 23: as in notebook 02 plus
a conversation excerpt truncated to the character budget. -/
def buildEmbeddingTextDb (title : String) (tags : Option (List String))
    (summary : Option String) (markdown : String) (maxChars : Nat) :
    Except PyErr String := do
  let tagStr ← pyJoin ", " tags
  pure (title ++ "\nTags: " ++ tagStr ++ "\nSummary: " ++ pyStrOpt summary ++
    "\nConversation: " ++ (markdown.take maxChars))

/-- C5: a failed enrichment does leave summary and tags null, but the
downstream embedding-text construction does not treat null tags as an empty
tag set: joining None raises TypeError in both notebook 02 and notebook 04. -/
theorem null_tags_crash_embedding_text :
    summaryFromEnrichment none = none ∧
    tagsFromEnrichment none = none ∧
    buildEmbeddingText "T" none none =
      .error (.typeError "can only join an iterable") ∧
    buildEmbeddingTextDb "T" none none "body" 4000 =
      .error (.typeError "can only join an iterable") ∧
    buildEmbeddingText "T" (some ["a", "b"]) (some "S") =
      .ok "T\nTags: a, b\nSummary: S" :=
  ⟨rfl, rfl, rfl, rfl, rfl⟩

/-- math.ceil(math.sqrt(n)) from notebook 04 cell 29, for the natural number
n of conversations (exact in the range the cap makes relevant). -/
def ceilSqrtNat (n : Nat) : Nat :=
  if Nat.sqrt n * Nat.sqrt n = n then Nat.sqrt n else Nat.sqrt n + 1

/-- Notebook 04 cell 29: n_clusters = min(math.ceil(math.sqrt(N)), 24). -/
def defaultNClusters (nConvs : Nat) : Nat :=
  min (ceilSqrtNat nConvs) 24

/-- C7: for every input size N with N at least 1, the default cluster count
is exactly min(ceil(sqrt(N)), 24): the computed root c satisfies N ≤ c² and
is the least natural with that property, and the pipeline default is the
minimum of c and the cap 24. -/
theorem default_k_is_min_ceil_sqrt_cap (n : Nat) (h : 1 ≤ n) :
    n ≤ ceilSqrtNat n * ceilSqrtNat n ∧
    (∀ j, n ≤ j * j → ceilSqrtNat n ≤ j) ∧
    1 ≤ ceilSqrtNat n ∧
    defaultNClusters n = min (ceilSqrtNat n) 24 := by
  have hle : Nat.sqrt n * Nat.sqrt n ≤ n := by
    simpa [Nat.pow_two] using Nat.sqrt_le' n
  have hlt : n < (Nat.sqrt n + 1) * (Nat.sqrt n + 1) := by
    simpa [Nat.pow_two] using Nat.lt_succ_sqrt' n
  refine ⟨?_, ?_, ?_, rfl⟩
  · unfold ceilSqrtNat
    split <;> omega
  · intro j hj
    have hsj : Nat.sqrt n ≤ j := by
      by_contra hcon
      push_neg at hcon
      have hjs : j + 1 ≤ Nat.sqrt n := hcon
      have hjj : (j + 1) * (j + 1) ≤ Nat.sqrt n * Nat.sqrt n :=
        Nat.mul_le_mul hjs hjs
      nlinarith
    unfold ceilSqrtNat
    split
    · exact hsj
    · rcases Nat.lt_or_ge (Nat.sqrt n) j with hgt | hge
      · omega
      · have hjeq : j = Nat.sqrt n := le_antisymm hge hsj
        subst hjeq
        omega
  · unfold ceilSqrtNat
    split
    · rename_i heq
      rcases Nat.eq_zero_or_pos (Nat.sqrt n) with h0 | h1
      · rw [h0] at heq
        omega
      · omega
    · omega

lemma sqrt_ten_eq : Nat.sqrt 10 = 3 := by
  have h1 : 3 ≤ Nat.sqrt 10 := Nat.le_sqrt.mpr (by norm_num)
  have h2 : Nat.sqrt 10 < 4 := Nat.sqrt_lt.mpr (by norm_num)
  omega

/-- Witness for C7 at N = 10: ceil(sqrt(10)) = 4 and the default is 4. -/
theorem default_k_is_min_ceil_sqrt_cap_witness :
    1 ≤ 10 ∧
    (10 ≤ ceilSqrtNat 10 * ceilSqrtNat 10 ∧
      (∀ j, 10 ≤ j * j → ceilSqrtNat 10 ≤ j) ∧
      1 ≤ ceilSqrtNat 10 ∧
      defaultNClusters 10 = min (ceilSqrtNat 10) 24) ∧
    defaultNClusters 10 = 4 := by
  refine ⟨by decide, default_k_is_min_ceil_sqrt_cap 10 (by decide), ?_⟩
  simp [defaultNClusters, ceilSqrtNat, sqrt_ten_eq]

/-- Little-endian byte serialization of one 32-bit word, as produced for each
float32 component by np.array(..., dtype=np.float32).tobytes() in notebook 04
cells 27 and 33. A component is carried as its 32-bit pattern. -/
def word32ToBytesLE (w : Nat) : List Nat :=
  [w % 256, w / 256 % 256, w / 65536 % 256, w / 16777216 % 256]

/-- The persisted binary form of an embedding vector: the concatenation of
the little-endian 4-byte encodings of its components. -/
def encodeEmbeddingLE (v : List Nat) : List Nat :=
  (v.map word32ToBytesLE).flatten

/-- Reading the persisted blob back: regroup consecutive 4-byte
little-endian words (np.frombuffer with dtype float32). -/
def decodeEmbeddingLE : List Nat → List Nat
  | b0 :: b1 :: b2 :: b3 :: rest =>
    (b0 + 256 * b1 + 65536 * b2 + 16777216 * b3) :: decodeEmbeddingLE rest
  | _ => []

lemma decode_word_cons (w : Nat) (hw : w < 4294967296) (bs : List Nat) :
    decodeEmbeddingLE (word32ToBytesLE w ++ bs) = w :: decodeEmbeddingLE bs := by
  unfold word32ToBytesLE
  simp only [List.cons_append, List.nil_append, decodeEmbeddingLE]
  congr 1
  omega

/-- C8: for every embedding vector (components carried as 32-bit patterns),
the persisted binary form is 4 bytes per component and decoding it back
reproduces the vector exactly, hence within any per-component tolerance,
in particular 1e-6 under every reading of the 32-bit patterns as numbers. -/
theorem embedding_blob_roundtrip (v : List Nat) (hv : ∀ w ∈ v, w < 4294967296) :
    decodeEmbeddingLE (encodeEmbeddingLE v) = v ∧
    (encodeEmbeddingLE v).length = 4 * v.length ∧
    (∀ (interp : Nat → ℚ) (i : Nat) (a b : Nat),
      (decodeEmbeddingLE (encodeEmbeddingLE v))[i]? = some a → v[i]? = some b →
      |interp a - interp b| ≤ 1 / 1000000) := by
  have hdec : decodeEmbeddingLE (encodeEmbeddingLE v) = v := by
    induction v with
    | nil => rfl
    | cons w ws ih =>
      have hw : w < 4294967296 := hv w (List.mem_cons_self _ _)
      have hws : ∀ u ∈ ws, u < 4294967296 :=
        fun u hu => hv u (List.mem_cons_of_mem _ hu)
      unfold encodeEmbeddingLE
      simp only [List.map_cons, List.flatten_cons]
      rw [decode_word_cons w hw]
      rw [show ((ws.map word32ToBytesLE).flatten = encodeEmbeddingLE ws) from rfl,
        ih hws]
  have hlen : ∀ u : List Nat, (encodeEmbeddingLE u).length = 4 * u.length := by
    intro u
    unfold encodeEmbeddingLE
    induction u with
    | nil => rfl
    | cons w ws ih =>
      simp only [List.map_cons, List.flatten_cons, List.length_append,
        List.length_cons]
      rw [ih]
      simp [word32ToBytesLE]
      ring
  refine ⟨hdec, hlen v, ?_⟩
  intro interp i a b ha hb
  rw [hdec] at ha
  rw [ha] at hb
  injection hb with hab
  rw [hab]
  simp

/-- Witness for C8 at a concrete three-component vector. -/
theorem embedding_blob_roundtrip_witness :
    (∀ w ∈ [0, 1065353216, 3212836864], w < 4294967296) ∧
    decodeEmbeddingLE (encodeEmbeddingLE [0, 1065353216, 3212836864]) =
      [0, 1065353216, 3212836864] ∧
    (encodeEmbeddingLE [0, 1065353216, 3212836864]).length = 4 * 3 := by
  have hv : ∀ w ∈ [0, 1065353216, 3212836864], w < 4294967296 := by decide
  have hmain := embedding_blob_roundtrip [0, 1065353216, 3212836864] hv
  exact ⟨hv, hmain.1, hmain.2.1⟩

/-- The per-cluster member extraction of notebook 03 cell 10: the ids of the
conversations whose cluster label equals the given cluster id, in input
order (conversation_embs_df[cluster_mask]["conversation_id"].tolist()). -/
def clusterMembers (pts : List (String × Nat)) (cid : Nat) : List String :=
  pts.filterMap (fun p => if p.2 = cid then some p.1 else none)

/-- All member lists, one per cluster id 0..K-1, as the notebook loop
for cluster_id in range(n_clusters) produces them. -/
def allClusterMembers (pts : List (String × Nat)) (k : Nat) : List (List String) :=
  (List.range k).map (clusterMembers pts)

lemma clusterMembers_cons_self (p : String × Nat) (pts : List (String × Nat)) :
    clusterMembers (p :: pts) p.2 = p.1 :: clusterMembers pts p.2 := by
  simp [clusterMembers]

lemma clusterMembers_cons_ne (p : String × Nat) (pts : List (String × Nat))
    (cid : Nat) (hne : p.2 ≠ cid) :
    clusterMembers (p :: pts) cid = clusterMembers pts cid := by
  simp [clusterMembers, hne]

lemma flatten_members_cons (p : String × Nat) (pts : List (String × Nat)) :
    ∀ cids : List Nat, cids.Nodup → p.2 ∈ cids →
      ((cids.map (clusterMembers (p :: pts))).flatten).Perm
        (p.1 :: (cids.map (clusterMembers pts)).flatten) := by
  intro cids
  induction cids with
  | nil =>
    intro _ hmem
    cases hmem
  | cons c cs ih =>
    intro hnd hmem
    rcases List.mem_cons.mp hmem with rfl | hmem'
    · have hnotin : p.2 ∉ cs := (List.nodup_cons.mp hnd).1
      have hrest : cs.map (clusterMembers (p :: pts)) = cs.map (clusterMembers pts) := by
        apply List.map_congr_left
        intro c' hc'
        exact clusterMembers_cons_ne p pts c' (fun hp => hnotin (hp ▸ hc'))
      simp only [List.map_cons, List.flatten_cons, clusterMembers_cons_self, hrest]
      exact List.Perm.refl _
    · have hne : p.2 ≠ c := by
        intro hp
        exact (List.nodup_cons.mp hnd).1 (hp ▸ hmem')
      have hperm := ih (List.nodup_cons.mp hnd).2 hmem'
      simp only [List.map_cons, List.flatten_cons,
        clusterMembers_cons_ne p pts c hne]
      refine List.Perm.trans (List.Perm.append_left _ hperm) ?_
      exact List.perm_middle

/-- C9: for every list of labelled conversations whose labels all lie below
K, the K member lists form a partition of the input: there are exactly K of
them and their concatenation is a permutation of the input id list (no id
duplicated, none omitted). -/
theorem cluster_members_partition (pts : List (String × Nat)) (k : Nat)
    (hlab : ∀ p ∈ pts, p.2 < k) :
    (allClusterMembers pts k).length = k ∧
    ((allClusterMembers pts k).flatten).Perm (pts.map Prod.fst) := by
  refine ⟨by simp [allClusterMembers], ?_⟩
  induction pts with
  | nil =>
    simp only [allClusterMembers]
    have hempty : ∀ c ∈ List.range k, clusterMembers [] c = [] := by
      intro c _
      rfl
    rw [List.map_congr_left hempty]
    simp
  | cons p ps ih =>
    have hmem : p.2 ∈ List.range k := List.mem_range.mpr (hlab p (List.mem_cons_self _ _))
    have hstep := flatten_members_cons p ps (List.range k) (List.nodup_range k) hmem
    have hrest := ih (fun q hq => hlab q (List.mem_cons_of_mem _ hq))
    simp only [allClusterMembers] at hstep hrest ⊢
    simp only [List.map_cons]
    exact hstep.trans (List.Perm.cons p.1 hrest)

/-- Witness for C9: 10 conversations labelled into K = 2 clusters give
exactly two member lists jointly holding each input id exactly once. -/
theorem cluster_members_partition_witness :
    (∀ p ∈ [("c1", 0), ("c2", 1), ("c3", 0), ("c4", 1), ("c5", 0),
            ("c6", 1), ("c7", 0), ("c8", 1), ("c9", 0), ("c10", 1)],
      p.2 < 2) ∧
    (allClusterMembers
        [("c1", 0), ("c2", 1), ("c3", 0), ("c4", 1), ("c5", 0),
         ("c6", 1), ("c7", 0), ("c8", 1), ("c9", 0), ("c10", 1)] 2).length = 2 ∧
    ((allClusterMembers
        [("c1", 0), ("c2", 1), ("c3", 0), ("c4", 1), ("c5", 0),
         ("c6", 1), ("c7", 0), ("c8", 1), ("c9", 0), ("c10", 1)] 2).flatten).Perm
      (["c1", "c2", "c3", "c4", "c5", "c6", "c7", "c8", "c9", "c10"]) := by
  have hlab : ∀ p ∈ [("c1", 0), ("c2", 1), ("c3", 0), ("c4", 1), ("c5", 0),
      ("c6", 1), ("c7", 0), ("c8", 1), ("c9", 0), ("c10", 1)], p.2 < 2 := by decide
  have hmain := cluster_members_partition
    [("c1", 0), ("c2", 1), ("c3", 0), ("c4", 1), ("c5", 0),
     ("c6", 1), ("c7", 0), ("c8", 1), ("c9", 0), ("c10", 1)] 2 hlab
  exact ⟨hlab, hmain.1, hmain.2⟩

/-- The clusters table of notebook 04, abstracted to the list of primary key
pairs (cluster_solution_id, cluster_id) it holds, in insertion order. -/
structure ClustersTable where
  rowKeys : List (String × String)
  deriving DecidableEq, Repr

/-- Notebook 04 cell 33: cluster_solution_id is the string kmeans_ followed
by n_clusters, a value fully determined by the input size. -/
def clusterSolutionIdFor (nConvs : Nat) : String :=
  "kmeans_" ++ toString (defaultNClusters nConvs)

/-- SQLite INSERT under PRIMARY KEY (cluster_solution_id, cluster_id):
inserting a row whose key is already present fails with an IntegrityError;
otherwise the row is appended and insertion continues. -/
def sqliteInsertKeys (t : ClustersTable) : List (String × String) → Except PyErr ClustersTable
  | [] => .ok t
  | k :: ks =>
    if k ∈ t.rowKeys then .error (.integrityError "UNIQUE constraint failed")
    else sqliteInsertKeys ⟨t.rowKeys ++ [k]⟩ ks

/-- Notebook 04 cell 8: DROP TABLE IF EXISTS clusters, then CREATE TABLE:
every notebook run starts over from an empty clusters table. -/
def dropAndCreateClusters (_t : ClustersTable) : ClustersTable := ⟨[]⟩

/-- One notebook run of the clustering stage against the database: recreate
the clusters table, then insert one row per cluster id under the solution
id kmeans_<n_clusters>. -/
def runClustersStage (t : ClustersTable) (nConvs : Nat) : Except PyErr ClustersTable :=
  sqliteInsertKeys (dropAndCreateClusters t)
    ((List.range (defaultNClusters nConvs)).map
      (fun c => (clusterSolutionIdFor nConvs, toString c)))

lemma defaultNClusters_ten : defaultNClusters 10 = 4 := by
  simp [defaultNClusters, ceilSqrtNat, sqrt_ten_eq]

/-- C6 counterexample: running the stage twice on the same 10 conversations
commits under the same solution id kmeans_4 both times, so no new solution
id is produced; and a run wipes a previously committed solution (kmeans_9)
from the table instead of leaving it unchanged. -/
theorem rerun_same_inputs_reuses_solution_id :
    (∃ t1, runClustersStage ⟨[]⟩ 10 = .ok t1 ∧
      clusterSolutionIdFor 10 ∈ t1.rowKeys.map Prod.fst ∧
      runClustersStage t1 10 = .ok t1) ∧
    (∃ t2, runClustersStage ⟨[("kmeans_9", "0")]⟩ 10 = .ok t2 ∧
      ("kmeans_9", "0") ∉ t2.rowKeys) := by
  have hrun : ∀ t : ClustersTable, runClustersStage t 10 =
      .ok ⟨[("kmeans_4", "0"), ("kmeans_4", "1"), ("kmeans_4", "2"), ("kmeans_4", "3")]⟩ := by
    intro t
    simp only [runClustersStage, clusterSolutionIdFor, defaultNClusters_ten,
      dropAndCreateClusters]
    rfl
  refine ⟨⟨_, hrun ⟨[]⟩, ?_, hrun _⟩, ⟨_, hrun ⟨[("kmeans_9", "0")]⟩, by decide⟩⟩
  have hid : clusterSolutionIdFor 10 = "kmeans_4" := by
    simp only [clusterSolutionIdFor, defaultNClusters_ten]
    rfl
  rw [hid]
  decide

lemma sqliteInsertKeys_ok_rowKeys (ks : List (String × String)) :
    ∀ (t t' : ClustersTable), sqliteInsertKeys t ks = .ok t' →
      t'.rowKeys = t.rowKeys ++ ks := by
  induction ks with
  | nil =>
    intro t t' h
    injection h with h
    rw [← h]
    simp
  | cons k ks' ih =>
    intro t t' h
    unfold sqliteInsertKeys at h
    split at h
    · cases h
    · have := ih _ _ h
      rw [this]
      simp

/-- C6 amended: every run recreates the clusters table, so the prior
database state is irrelevant and a re-run with the same inputs commits the
same rows under the same deterministic solution id kmeans_<n_clusters>
(previously committed solutions are dropped, not preserved); the composite
primary key means that, absent the drop, re-inserting an existing
(solution id, cluster id) pair can never succeed, so nothing is silently
overwritten. -/
theorem rerun_recreates_table_and_pk_blocks_duplicates :
    (∀ (n : Nat) (tA tB : ClustersTable),
      runClustersStage tA n = runClustersStage tB n) ∧
    (∀ (t t1 : ClustersTable) (n : Nat), runClustersStage t n = .ok t1 →
      t1.rowKeys.map Prod.fst =
        List.replicate (defaultNClusters n) (clusterSolutionIdFor n)) ∧
    (∀ (t : ClustersTable) (ks : List (String × String)),
      (∃ k ∈ ks, k ∈ t.rowKeys) → ∀ t', sqliteInsertKeys t ks ≠ .ok t') := by
  refine ⟨fun n tA tB => rfl, ?_, ?_⟩
  · intro t t1 n h
    have hkeys := sqliteInsertKeys_ok_rowKeys _ _ _ h
    simp only [dropAndCreateClusters, List.nil_append] at hkeys
    rw [hkeys, List.map_map]
    have : (Prod.fst ∘ fun c : Nat => (clusterSolutionIdFor n, toString c)) =
        fun _ : Nat => clusterSolutionIdFor n := rfl
    rw [this, List.map_const']
    simp
  · intro t ks
    induction ks generalizing t with
    | nil =>
      rintro ⟨k, hk, _⟩
      cases hk
    | cons k0 ks' ih =>
      rintro ⟨k, hk, hkt⟩ t' h
      unfold sqliteInsertKeys at h
      split at h
      · cases h
      · rename_i hnot
        rcases List.mem_cons.mp hk with rfl | hk'
        · exact hnot hkt
        · exact ih ⟨t.rowKeys ++ [k0]⟩
            ⟨k, hk', List.mem_append_left _ hkt⟩ t' h

/-- Witness for the amended C6 at concrete inputs: two runs from different
prior tables coincide; the committed solution ids for N = 10 are four copies
of kmeans_4; and re-inserting an already-present key cannot succeed. -/
theorem rerun_recreates_table_and_pk_blocks_duplicates_witness :
    runClustersStage ⟨[]⟩ 10 = runClustersStage ⟨[("kmeans_9", "0")]⟩ 10 ∧
    (∃ k ∈ [("s", "0")], k ∈ (ClustersTable.mk [("s", "0")]).rowKeys) ∧
    sqliteInsertKeys ⟨[("s", "0")]⟩ [("s", "0")] ≠ .ok ⟨[]⟩ := by
  refine ⟨rerun_recreates_table_and_pk_blocks_duplicates.1 10 ⟨[]⟩ ⟨[("kmeans_9", "0")]⟩,
    ⟨("s", "0"), by decide, by decide⟩, ?_⟩
  exact rerun_recreates_table_and_pk_blocks_duplicates.2.2 ⟨[("s", "0")]⟩
    [("s", "0")] ⟨("s", "0"), by decide, by decide⟩ ⟨[]⟩

/-- Constructor parameters of MiniBatchKMeans in notebook 03 cell 8. -/
structure KMeansParams where
  n_clusters : Nat
  batch_size : Nat
  random_state : Option Nat
  deriving DecidableEq, Repr

/-- Constructor parameters of UMAP in notebook 03 cell 24. -/
structure UmapParams where
  n_components : Nat
  random_state : Option Nat
  deriving DecidableEq, Repr

/-- MiniBatchKMeans(n_clusters=24, batch_size=1024, random_state=42). -/
def nbKMeansParams : KMeansParams := ⟨24, 1024, some 42⟩

/-- UMAP(n_components=2, random_state=42). -/
def nbUmapParams : UmapParams := ⟨2, some 42⟩

/-- The seed a seeded library run actually uses: the pinned random_state
when one is given, the ambient entropy of that run otherwise. -/
def effectiveSeed (random_state : Option Nat) (entropy : Nat) : Nat :=
  random_state.getD entropy

/-- One run of the notebook 03 clustering stage: fit MiniBatchKMeans with
the cell 8 parameters and UMAP with the cell 24 parameters on the same
embeddings array. The library fit procedures are modelled as deterministic
functions of parameters, seed and data; entropy is the ambient randomness a
run would draw on were its seed not pinned. -/
def clusteringStageRun {E L C : Type}
    (kmeansFit : Nat → Nat → Nat → List E → L)
    (umapFit : Nat → Nat → List E → C)
    (entropy : Nat) (embeddings : List E) : L × C :=
  (kmeansFit nbKMeansParams.n_clusters nbKMeansParams.batch_size
      (effectiveSeed nbKMeansParams.random_state entropy) embeddings,
   umapFit nbUmapParams.n_components
      (effectiveSeed nbUmapParams.random_state entropy) embeddings)

/-- C10: two runs of the notebook clustering stage on the same embeddings
give identical cluster labels and identical 2-D coordinates whatever ambient
entropy each run has, because both constructors pin random_state = 42 and
the pinned seed makes the effective seed ignore the entropy. -/
theorem clustering_stage_two_runs_equal {E L C : Type}
    (kmeansFit : Nat → Nat → Nat → List E → L)
    (umapFit : Nat → Nat → List E → C)
    (entropyRun1 entropyRun2 : Nat) (embeddings : List E) :
    clusteringStageRun kmeansFit umapFit entropyRun1 embeddings =
      clusteringStageRun kmeansFit umapFit entropyRun2 embeddings := rfl

end ChatExport
